import Mathlib

/-!
Shallow embedding of the `winfileask` Go package (file `winfileask.go`).

Go strings are modelled at the level of Unicode code points (`GoStr := List Nat`);
UTF-16 buffers (`[]uint16` in Go) are modelled as lists of code units, also
`List Nat`, each value below 2^16 in practice.  Fallible Go functions returning
`(T, error)` are modelled as `Except String T`, where the `String` is the Go
error message.  The two `comdlg32.dll` entry points are modelled by an oracle
parameter `os : TagOFNA → Nat × GoStr` giving the nonzero/zero return value and
the contents of the caller's output buffer after the call.  `unsafe.Sizeof(ofn)`
is a platform constant and is passed in as the parameter `sizeofOfn`.
-/

namespace Winfileask

/-- A Go string, as its sequence of Unicode code points (runes). -/
abbrev GoStr := List Nat

/-- `Filter` represents a file filter and its name and pattern
(struct `Filter` in the source). -/
structure Filter where
  Name : GoStr
  Pattern : GoStr
  deriving DecidableEq, Repr

/-- `FileFilter` is a list of `Filter`s (type `FileFilter` in the source). -/
abbrev FileFilter := List Filter

/-- UTF-16 encoding of a single rune, as Go's `unicode/utf16.Encode` does it
per rune: surrogate code points and values above U+10FFFF become the
replacement character U+FFFD; astral code points become a surrogate pair. -/
def utf16EncodeRune (r : Nat) : GoStr :=
  if r < 0x10000 then
    if 0xD800 ≤ r ∧ r < 0xE000 then [0xFFFD] else [r]
  else if r ≤ 0x10FFFF then
    [0xD800 + (r - 0x10000) / 0x400, 0xDC00 + (r - 0x10000) % 0x400]
  else [0xFFFD]

/-- UTF-16 encoding of a whole string (no terminator appended). -/
def encStr (s : GoStr) : GoStr :=
  s.flatMap utf16EncodeRune

/-- Go's `syscall.UTF16FromString`: fails with `EINVAL` ("invalid argument")
when the string contains a NUL; otherwise returns the UTF-16 encoding with a
terminating NUL unit appended. -/
def UTF16FromString (s : GoStr) : Except String GoStr :=
  if 0 ∈ s then .error "invalid argument"
  else .ok (encStr s ++ [0])

/-- Go's `syscall.UTF16PtrFromString` (`&UTF16FromString(s)[0]`); the pointer
is modelled by the buffer itself. -/
def UTF16PtrFromString (s : GoStr) : Except String GoStr :=
  UTF16FromString s

/-- Go's `unicode/utf16.Decode`, mirroring its three-way switch: a unit below
0xD800 or at/above 0xE000 decodes to itself; a high surrogate (0xD800-0xDBFF)
immediately followed by a low surrogate (0xDC00-0xDFFF) combines into one
astral code point; any other unit — an unpaired low surrogate or a high
surrogate not followed by a low one — decodes to the replacement character
U+FFFD (the `default: replacementChar` branch). -/
def utf16Decode : GoStr → GoStr
  | [] => []
  | u :: rest =>
    if u < 0xD800 ∨ 0xE000 ≤ u then
      u :: utf16Decode rest
    else if 0xD800 ≤ u ∧ u < 0xDC00 then
      match rest with
      | v :: rest2 =>
        if 0xDC00 ≤ v ∧ v < 0xE000 then
          (0x10000 + (u - 0xD800) * 0x400 + (v - 0xDC00)) :: utf16Decode rest2
        else
          0xFFFD :: utf16Decode (v :: rest2)
      | [] => [0xFFFD]
    else
      0xFFFD :: utf16Decode rest

/-- Go's `syscall.UTF16ToString`: truncate at the first 0 unit, then decode. -/
def UTF16ToString (s : GoStr) : GoStr :=
  utf16Decode (s.takeWhile fun u => u != 0)

/-- The loop body of `FileFilter.ToRaw`: the `strings.Builder` accumulator
`acc` has each filter's name, a `'|'` (code point 124), the pattern (rejected
with the error `"pattern contains a space"` when it contains `' '` = 32) and
another `'|'` appended; after the loop one more `'|'` is appended. -/
def toRawLoop (acc : GoStr) : FileFilter → Except String GoStr
  | [] => .ok (acc ++ [124])
  | f :: fs =>
    let acc2 := acc ++ f.Name ++ [124]
    if 32 ∈ f.Pattern then .error "pattern contains a space"
    else toRawLoop (acc2 ++ f.Pattern ++ [124]) fs

/-- `(*FileFilter).ToRaw`: build the `|`-separated string, convert it with
`syscall.UTF16FromString` (which appends a terminating NUL), then replace
every `'|'` unit (124) by 0.  The returned `*uint16` is modelled by the whole
buffer. -/
def FileFilter.ToRaw (ff : FileFilter) : Except String GoStr :=
  match toRawLoop [] ff with
  | .error e => .error e
  | .ok s =>
    match UTF16FromString s with
    | .error e => .error e
    | .ok ptr => .ok (ptr.map fun u => if u = 124 then 0 else u)

-- Flag constants used by the two dialog functions (values from the source).
/-- `FileMustExist` flag (0x00001000). -/
def FileMustExist : Nat := 0x00001000
/-- `HideReadOnly` flag (0x00000004). -/
def HideReadOnly : Nat := 0x00000004
/-- `PathMustExist` flag (0x00000800). -/
def PathMustExist : Nat := 0x00000800

/-- The fields of the `TagOFNA` structure that `NewTagOFNA` initializes.
Pointer members are modelled by the pointed-to buffers; `LpstrFile` is
`Option`al because `NewTagOFNA` leaves it nil. -/
structure TagOFNA where
  LStructSize : Nat
  HwndOwner : Nat
  LpstrFilter : GoStr
  NFilterIndex : Nat
  LpstrFile : Option GoStr
  NMaxFile : Nat
  LpstrInitialDir : GoStr
  LpstrTitle : GoStr
  Flags : Nat
  NFileOffset : Nat
  NFileExtension : Nat
  deriving DecidableEq, Repr

/-- `NewTagOFNA`: encode the title, the filter list and the initial directory
(in that order, propagating the first error), and build the structure with
`LStructSize = uint32(unsafe.Sizeof(ofn))` (the platform constant `sizeofOfn`
truncated to 32 bits). -/
def NewTagOFNA (sizeofOfn : Nat) (parentHWND : Nat) (title : GoStr)
    (filter : FileFilter) (initialDir : GoStr) (flags : Nat) :
    Except String TagOFNA :=
  let lStructSize := sizeofOfn % 2 ^ 32
  match UTF16PtrFromString title with
  | .error e => .error e
  | .ok lpstrTitle =>
    match FileFilter.ToRaw filter with
    | .error e => .error e
    | .ok lpstrFilter =>
      match UTF16PtrFromString initialDir with
      | .error e => .error e
      | .ok lpstrInitialDir =>
        .ok { LStructSize := lStructSize
              HwndOwner := parentHWND
              LpstrFilter := lpstrFilter
              NFilterIndex := 0
              LpstrFile := none
              NMaxFile := 0
              LpstrInitialDir := lpstrInitialDir
              LpstrTitle := lpstrTitle
              Flags := flags
              NFileOffset := 0
              NFileExtension := 0 }

/-- The shared body of `GetOpenFileName` and `GetSaveFileName`, parameterized
by the flag word each one chooses: build the structure, wire in a fresh zeroed
1024-unit output buffer with declared capacity 1024, call the OS oracle, and
decode.  A zero return value gives `("", false, nil)`. -/
def runDialog (flags : Nat) (sizeofOfn : Nat) (os : TagOFNA → Nat × GoStr)
    (parentHWND : Nat) (title : GoStr) (filter : FileFilter)
    (initialDir : GoStr) : GoStr × Bool × Option String :=
  match NewTagOFNA sizeofOfn parentHWND title filter initialDir flags with
  | .error e => ([], false, some e)
  | .ok ofn0 =>
    let buf : GoStr := List.replicate 1024 0
    let ofn := { ofn0 with LpstrFile := some buf, NMaxFile := 1024 }
    let res := os ofn
    if res.1 = 0 then ([], false, none)
    else (UTF16ToString res.2, true, none)

/-- `GetOpenFileName`: flags `FileMustExist | HideReadOnly | PathMustExist`,
then the common build/call/decode sequence. -/
def GetOpenFileName (sizeofOfn : Nat) (os : TagOFNA → Nat × GoStr)
    (parentHWND : Nat) (title : GoStr) (filter : FileFilter)
    (initialDir : GoStr) : GoStr × Bool × Option String :=
  let flags := FileMustExist ||| HideReadOnly ||| PathMustExist
  match NewTagOFNA sizeofOfn parentHWND title filter initialDir flags with
  | .error e => ([], false, some e)
  | .ok ofn0 =>
    let buf : GoStr := List.replicate 1024 0
    let ofn := { ofn0 with LpstrFile := some buf, NMaxFile := 1024 }
    let res := os ofn
    if res.1 = 0 then ([], false, none)
    else (UTF16ToString res.2, true, none)

/-- `GetSaveFileName`: flags `HideReadOnly | PathMustExist`, then the common
build/call/decode sequence. -/
def GetSaveFileName (sizeofOfn : Nat) (os : TagOFNA → Nat × GoStr)
    (parentHWND : Nat) (title : GoStr) (filter : FileFilter)
    (initialDir : GoStr) : GoStr × Bool × Option String :=
  let flags := HideReadOnly ||| PathMustExist
  match NewTagOFNA sizeofOfn parentHWND title filter initialDir flags with
  | .error e => ([], false, some e)
  | .ok ofn0 =>
    let buf : GoStr := List.replicate 1024 0
    let ofn := { ofn0 with LpstrFile := some buf, NMaxFile := 1024 }
    let res := os ofn
    if res.1 = 0 then ([], false, none)
    else (UTF16ToString res.2, true, none)

/-- The spec's running example, `[{"Text Files", "*.txt"}, {"All Files", "*.*"}]`,
written out as code points. -/
def exampleFilters : FileFilter :=
  [{ Name := [84, 101, 120, 116, 32, 70, 105, 108, 101, 115]
     Pattern := [42, 46, 116, 120, 116] },
   { Name := [65, 108, 108, 32, 70, 105, 108, 101, 115]
     Pattern := [42, 46, 42] }]

example :
    FileFilter.ToRaw exampleFilters =
      .ok [84, 101, 120, 116, 32, 70, 105, 108, 101, 115, 0,
           42, 46, 116, 120, 116, 0,
           65, 108, 108, 32, 70, 105, 108, 101, 115, 0,
           42, 46, 42, 0, 0, 0] := rfl

example : FileFilter.ToRaw ([] : FileFilter) = .ok [0, 0] := rfl

example :
    FileFilter.ToRaw [{ Name := [65], Pattern := [32] }] =
      .error "pattern contains a space" := rfl

example :
    FileFilter.ToRaw [{ Name := [65, 124, 66], Pattern := [42] }] =
      .ok [65, 0, 66, 0, 42, 0, 0, 0] := rfl

example : UTF16ToString [72, 105, 0, 88] = [72, 105] := rfl

example : utf16Decode [0xDC00] = [0xFFFD] := rfl

example : utf16Decode [0xD800] = [0xFFFD] := rfl

example : utf16Decode [0xD800, 66] = [0xFFFD, 66] := rfl

example : utf16Decode [0xD801, 0xDC37] = [0x10437] := rfl

example : UTF16ToString [0xDC00, 65, 0, 88] = [0xFFFD, 65] := rfl

/-! ### Helper definitions and lemmas for the proofs -/

/-- The `|`-separated body that `toRawLoop` accumulates over a list of
filters (without the final extra `|`). -/
def filterBody (ff : FileFilter) : GoStr :=
  ff.flatMap fun flt => flt.Name ++ [124] ++ flt.Pattern ++ [124]

/-- The final substitution pass of `ToRaw`: rewrite every `'|'` unit to 0. -/
def subst124 (l : GoStr) : GoStr :=
  l.map fun u => if u = 124 then 0 else u

lemma toRawLoop_ok (fs : FileFilter) (h : ∀ flt ∈ fs, 32 ∉ flt.Pattern) :
    ∀ acc, toRawLoop acc fs = .ok (acc ++ filterBody fs ++ [124]) := by
  induction fs with
  | nil => intro acc; simp [toRawLoop, filterBody]
  | cons f fs ih =>
    intro acc
    have hf : 32 ∉ f.Pattern := h f (List.mem_cons_self f fs)
    have hfs : ∀ flt ∈ fs, 32 ∉ flt.Pattern := fun flt hm => h flt (List.mem_cons_of_mem f hm)
    simp only [toRawLoop, if_neg hf, ih hfs, filterBody, List.flatMap_cons]
    simp [List.append_assoc]

lemma toRawLoop_error (fs : FileFilter) (h : ∃ flt ∈ fs, 32 ∈ flt.Pattern) :
    ∀ acc, toRawLoop acc fs = .error "pattern contains a space" := by
  induction fs with
  | nil => rcases h with ⟨flt, hm, _⟩; cases hm
  | cons f fs ih =>
    intro acc
    by_cases hf : 32 ∈ f.Pattern
    · simp [toRawLoop, hf]
    · have : ∃ flt ∈ fs, 32 ∈ flt.Pattern := by
        rcases h with ⟨flt, hm, hsp⟩
        rcases List.mem_cons.mp hm with rfl | hm'
        · exact absurd hsp hf
        · exact ⟨flt, hm', hsp⟩
      simp [toRawLoop, hf, ih this]

lemma zero_not_mem_filterBody (ff : FileFilter)
    (h : ∀ flt ∈ ff, 0 ∉ flt.Name ∧ 0 ∉ flt.Pattern) :
    0 ∉ filterBody ff := by
  intro hmem
  rw [filterBody, List.mem_flatMap] at hmem
  rcases hmem with ⟨flt, hflt, hm⟩
  rcases h flt hflt with ⟨hn, hp⟩
  simp only [List.mem_append, List.mem_singleton] at hm
  rcases hm with ((h1 | h2) | h3) | h4
  · exact hn h1
  · exact absurd h2 (by decide)
  · exact hp h3
  · exact absurd h4 (by decide)

lemma encStr_nil : encStr [] = [] := rfl

lemma encStr_append (s t : GoStr) : encStr (s ++ t) = encStr s ++ encStr t :=
  List.flatMap_append s t utf16EncodeRune

lemma encStr_cons (r : Nat) (s : GoStr) :
    encStr (r :: s) = utf16EncodeRune r ++ encStr s :=
  List.flatMap_cons r s utf16EncodeRune

lemma encStr_pipe : encStr [124] = [124] := rfl

lemma count_utf16EncodeRune_zero (r : Nat) :
    (utf16EncodeRune r).count 0 = if r = 0 then 1 else 0 := by
  unfold utf16EncodeRune
  split
  · split
    · next hsur =>
      have hr : r ≠ 0 := by omega
      simp [hr]
    · next hsur =>
      rcases eq_or_ne r 0 with rfl | hr
      · simp
      · simp [List.count_cons, hr]
  · next h1 =>
    split
    · next h2 =>
      have hr : r ≠ 0 := by omega
      have h3 : 0xD800 + (r - 0x10000) / 0x400 ≠ 0 := by omega
      have h4 : 0xDC00 + (r - 0x10000) % 0x400 ≠ 0 := by omega
      simp [List.count_cons, hr, h3, h4]
    · next h2 =>
      have hr : r ≠ 0 := by omega
      simp [hr]

lemma count_utf16EncodeRune_pipe (r : Nat) :
    (utf16EncodeRune r).count 124 = if r = 124 then 1 else 0 := by
  unfold utf16EncodeRune
  split
  · split
    · next hsur =>
      have hr : r ≠ 124 := by omega
      simp [hr]
    · next hsur =>
      rcases eq_or_ne r 124 with rfl | hr
      · simp
      · simp [List.count_cons, hr]
  · next h1 =>
    split
    · next h2 =>
      have hr : r ≠ 124 := by omega
      have h3 : 0xD800 + (r - 0x10000) / 0x400 ≠ 124 := by omega
      have h4 : 0xDC00 + (r - 0x10000) % 0x400 ≠ 124 := by omega
      simp [List.count_cons, hr, h3, h4]
    · next h2 =>
      have hr : r ≠ 124 := by omega
      simp [hr]

lemma count_encStr_zero (s : GoStr) : (encStr s).count 0 = s.count 0 := by
  induction s with
  | nil => rfl
  | cons r s ih =>
    rw [encStr_cons, List.count_append, ih, count_utf16EncodeRune_zero,
      List.count_cons]
    rcases eq_or_ne r 0 with rfl | hr
    · simp
      omega
    · simp [hr]

lemma count_encStr_pipe (s : GoStr) : (encStr s).count 124 = s.count 124 := by
  induction s with
  | nil => rfl
  | cons r s ih =>
    rw [encStr_cons, List.count_append, ih, count_utf16EncodeRune_pipe,
      List.count_cons]
    rcases eq_or_ne r 124 with rfl | hr
    · simp
      omega
    · simp [hr]

lemma subst124_append (l m : GoStr) :
    subst124 (l ++ m) = subst124 l ++ subst124 m :=
  List.map_append _ l m

lemma subst124_pipe : subst124 [124] = [0] := rfl

lemma subst124_of_not_mem (l : GoStr) (h : 124 ∉ l) : subst124 l = l := by
  induction l with
  | nil => rfl
  | cons u l ih =>
    have hu : u ≠ 124 := fun huu => h (huu ▸ List.mem_cons_self u l)
    have hl : 124 ∉ l := fun hm => h (List.mem_cons_of_mem u hm)
    simp [subst124, hu] at ih ⊢
    exact ih hl

lemma count_subst124_zero (l : GoStr) :
    (subst124 l).count 0 = l.count 0 + l.count 124 := by
  induction l with
  | nil => rfl
  | cons u l ih =>
    simp only [subst124, List.map_cons, List.count_cons] at ih ⊢
    rcases eq_or_ne u 124 with rfl | hu
    · simp [ih]; omega
    · rcases eq_or_ne u 0 with rfl | hu0
      · simp [ih]; omega
      · simp [hu, hu0, Ne.symm hu, Ne.symm hu0, ih]

lemma pipe_not_mem_subst124 (l : GoStr) : 124 ∉ subst124 l := by
  intro hm
  rw [subst124, List.mem_map] at hm
  rcases hm with ⟨u, _, hu⟩
  by_cases h : u = 124 <;> simp [h] at hu

/-- Characterization of `ToRaw` on inputs it accepts: the packed buffer is the
substituted UTF-16 encoding of the `|`-separated body, followed by the two
trailing terminators contributed by the loop's extra `|` and by
`UTF16FromString`'s appended NUL. -/
lemma toRaw_ok_eq (ff : FileFilter)
    (hsp : ∀ flt ∈ ff, 32 ∉ flt.Pattern)
    (h0 : ∀ flt ∈ ff, 0 ∉ flt.Name ∧ 0 ∉ flt.Pattern) :
    FileFilter.ToRaw ff = .ok (subst124 (encStr (filterBody ff)) ++ [0, 0]) := by
  have hloop := toRawLoop_ok ff hsp []
  have hmem : 0 ∉ filterBody ff ++ [124] := by
    intro hm
    rcases List.mem_append.mp hm with hm | hm
    · exact zero_not_mem_filterBody ff h0 hm
    · simp at hm
  rw [FileFilter.ToRaw, hloop]
  simp only [List.nil_append]
  rw [UTF16FromString, if_neg hmem]
  show Except.ok (subst124 (encStr (filterBody ff ++ [124]) ++ [0])) = _
  rw [encStr_append, encStr_pipe, subst124_append, subst124_append, subst124_pipe]
  have h00 : subst124 [0] = [0] := rfl
  rw [h00, List.append_assoc]
  rfl

/-- Pushing the encoding and substitution through the filter body: each
filter contributes its (substituted) encoded name, a terminator, its
(substituted) encoded pattern, and a terminator. -/
lemma subst124_encStr_filterBody (ff : FileFilter) :
    subst124 (encStr (filterBody ff)) =
      ff.flatMap fun flt =>
        subst124 (encStr flt.Name) ++ [0] ++ subst124 (encStr flt.Pattern) ++ [0] := by
  induction ff with
  | nil => rfl
  | cons f fs ih =>
    rw [filterBody, List.flatMap_cons, ← filterBody]
    simp only [List.flatMap_cons, encStr_append, encStr_pipe, subst124_append,
      subst124_pipe, ih, List.append_assoc]

lemma newTagOFNA_ok (sizeofOfn parentHWND : Nat) (t : GoStr) (ff : FileFilter)
    (d : GoStr) (flags : Nat) (raw : GoStr)
    (ht : 0 ∉ t) (hd : 0 ∉ d) (hf : FileFilter.ToRaw ff = .ok raw) :
    NewTagOFNA sizeofOfn parentHWND t ff d flags =
      .ok ⟨sizeofOfn % 2 ^ 32, parentHWND, raw, 0, none, 0,
           encStr d ++ [0], encStr t ++ [0], flags, 0, 0⟩ := by
  rw [NewTagOFNA]
  simp only [UTF16PtrFromString, UTF16FromString, if_neg ht, if_neg hd, hf]

lemma newTagOFNA_error (sizeofOfn parentHWND : Nat) (t : GoStr)
    (ff : FileFilter) (d : GoStr) (flags : Nat)
    (h : 0 ∈ t ∨ (∃ e, FileFilter.ToRaw ff = .error e) ∨ 0 ∈ d) :
    ∃ e, NewTagOFNA sizeofOfn parentHWND t ff d flags = .error e := by
  rw [NewTagOFNA]
  by_cases ht : 0 ∈ t
  · exact ⟨"invalid argument", by simp [UTF16PtrFromString, UTF16FromString, ht]⟩
  · simp only [UTF16PtrFromString, UTF16FromString, if_neg ht]
    cases hraw : FileFilter.ToRaw ff with
    | error e => exact ⟨e, rfl⟩
    | ok raw =>
      have hd : 0 ∈ d := by
        rcases h with h | ⟨e, he⟩ | h
        · exact absurd h ht
        · rw [hraw] at he; cases he
        · exact h
      exact ⟨"invalid argument", by simp [hd]⟩

lemma getOpenFileName_eq_runDialog (sizeofOfn : Nat) (os : TagOFNA → Nat × GoStr)
    (parentHWND : Nat) (t : GoStr) (ff : FileFilter) (d : GoStr) :
    GetOpenFileName sizeofOfn os parentHWND t ff d =
      runDialog (FileMustExist ||| HideReadOnly ||| PathMustExist)
        sizeofOfn os parentHWND t ff d := rfl

lemma getSaveFileName_eq_runDialog (sizeofOfn : Nat) (os : TagOFNA → Nat × GoStr)
    (parentHWND : Nat) (t : GoStr) (ff : FileFilter) (d : GoStr) :
    GetSaveFileName sizeofOfn os parentHWND t ff d =
      runDialog (HideReadOnly ||| PathMustExist)
        sizeofOfn os parentHWND t ff d := rfl

/-- The parameter structure that the dialog functions pass to the OS entry
point on the success path: the `NewTagOFNA` result with the fresh zeroed
1024-unit output buffer and its declared capacity wired in. -/
def builtOFN (sizeofOfn parentHWND : Nat) (raw t d : GoStr) (flags : Nat) :
    TagOFNA :=
  ⟨sizeofOfn % 2 ^ 32, parentHWND, raw, 0, some (List.replicate 1024 0), 1024,
   encStr d ++ [0], encStr t ++ [0], flags, 0, 0⟩

lemma runDialog_ok (flags sizeofOfn : Nat) (os : TagOFNA → Nat × GoStr)
    (parentHWND : Nat) (t : GoStr) (ff : FileFilter) (d : GoStr) (raw : GoStr)
    (ht : 0 ∉ t) (hd : 0 ∉ d) (hf : FileFilter.ToRaw ff = .ok raw) :
    runDialog flags sizeofOfn os parentHWND t ff d =
      (if (os (builtOFN sizeofOfn parentHWND raw t d flags)).1 = 0
       then ([], false, none)
       else (UTF16ToString (os (builtOFN sizeofOfn parentHWND raw t d flags)).2,
             true, none)) := by
  rw [runDialog, newTagOFNA_ok sizeofOfn parentHWND t ff d flags raw ht hd hf]
  rfl

lemma runDialog_error (flags sizeofOfn : Nat) (os : TagOFNA → Nat × GoStr)
    (parentHWND : Nat) (t : GoStr) (ff : FileFilter) (d : GoStr) (e : String)
    (h : NewTagOFNA sizeofOfn parentHWND t ff d flags = .error e) :
    runDialog flags sizeofOfn os parentHWND t ff d = ([], false, some e) := by
  rw [runDialog, h]

lemma newTagOFNA_filter_error (sizeofOfn parentHWND : Nat) (t : GoStr)
    (ff : FileFilter) (d : GoStr) (flags : Nat) (e : String)
    (ht : 0 ∉ t) (hf : FileFilter.ToRaw ff = .error e) :
    NewTagOFNA sizeofOfn parentHWND t ff d flags = .error e := by
  rw [NewTagOFNA]
  simp only [UTF16PtrFromString, UTF16FromString, if_neg ht, hf]

lemma pipe_not_mem_encStr (s : GoStr) (h : 124 ∉ s) : 124 ∉ encStr s := by
  have hc := count_encStr_pipe s
  rw [List.count_eq_zero_of_not_mem h] at hc
  exact List.count_eq_zero.mp hc

lemma flatMap_subst_eq_plain (ff : FileFilter)
    (h124 : ∀ flt ∈ ff, 124 ∉ flt.Name ∧ 124 ∉ flt.Pattern) :
    (ff.flatMap fun flt =>
        subst124 (encStr flt.Name) ++ [0] ++ subst124 (encStr flt.Pattern) ++ [0]) =
      ff.flatMap fun flt =>
        encStr flt.Name ++ [0] ++ encStr flt.Pattern ++ [0] := by
  induction ff with
  | nil => rfl
  | cons f fs ih =>
    rcases h124 f (List.mem_cons_self f fs) with ⟨hn, hp⟩
    have hfs : ∀ flt ∈ fs, 124 ∉ flt.Name ∧ 124 ∉ flt.Pattern :=
      fun flt hm => h124 flt (List.mem_cons_of_mem f hm)
    rw [List.flatMap_cons, List.flatMap_cons, ih hfs,
      subst124_of_not_mem _ (pipe_not_mem_encStr f.Name hn),
      subst124_of_not_mem _ (pipe_not_mem_encStr f.Pattern hp)]

lemma count_zero_plain_layout (ff : FileFilter)
    (h0 : ∀ flt ∈ ff, 0 ∉ flt.Name ∧ 0 ∉ flt.Pattern) :
    (ff.flatMap fun flt =>
        encStr flt.Name ++ [0] ++ encStr flt.Pattern ++ [0]).count 0 =
      2 * ff.length := by
  induction ff with
  | nil => rfl
  | cons f fs ih =>
    rcases h0 f (List.mem_cons_self f fs) with ⟨hn, hp⟩
    have hfs : ∀ flt ∈ fs, 0 ∉ flt.Name ∧ 0 ∉ flt.Pattern :=
      fun flt hm => h0 flt (List.mem_cons_of_mem f hm)
    have c1 : ([0] : GoStr).count 0 = 1 := rfl
    have cn : (encStr f.Name).count 0 = 0 := by
      rw [count_encStr_zero, List.count_eq_zero_of_not_mem hn]
    have cp : (encStr f.Pattern).count 0 = 0 := by
      rw [count_encStr_zero, List.count_eq_zero_of_not_mem hp]
    simp only [List.flatMap_cons, List.count_append, cn, cp, c1, ih hfs,
      List.length_cons]
    omega

lemma count_zero_subst_layout (ff : FileFilter)
    (h0 : ∀ flt ∈ ff, 0 ∉ flt.Name ∧ 0 ∉ flt.Pattern) :
    (ff.flatMap fun flt =>
        subst124 (encStr flt.Name) ++ [0] ++ subst124 (encStr flt.Pattern) ++ [0]).count 0 =
      2 * ff.length +
        (ff.map fun flt => flt.Name.count 124 + flt.Pattern.count 124).sum := by
  induction ff with
  | nil => rfl
  | cons f fs ih =>
    rcases h0 f (List.mem_cons_self f fs) with ⟨hn, hp⟩
    have hfs : ∀ flt ∈ fs, 0 ∉ flt.Name ∧ 0 ∉ flt.Pattern :=
      fun flt hm => h0 flt (List.mem_cons_of_mem f hm)
    have c1 : ([0] : GoStr).count 0 = 1 := rfl
    have cn : (subst124 (encStr f.Name)).count 0 = f.Name.count 124 := by
      rw [count_subst124_zero, count_encStr_zero, count_encStr_pipe,
        List.count_eq_zero_of_not_mem hn, Nat.zero_add]
    have cp : (subst124 (encStr f.Pattern)).count 0 = f.Pattern.count 124 := by
      rw [count_subst124_zero, count_encStr_zero, count_encStr_pipe,
        List.count_eq_zero_of_not_mem hp, Nat.zero_add]
    simp only [List.flatMap_cons, List.count_append, cn, cp, c1, ih hfs,
      List.length_cons, List.map_cons, List.sum_cons]
    omega

lemma toRaw_ok_length (ff : FileFilter) (raw : GoStr)
    (h : FileFilter.ToRaw ff = .ok raw) : 1 ≤ raw.length := by
  rw [FileFilter.ToRaw] at h
  cases h1 : toRawLoop [] ff with
  | error e => rw [h1] at h; cases h
  | ok s =>
    rw [h1] at h
    simp only [UTF16FromString] at h
    by_cases h2 : 0 ∈ s
    · rw [if_pos h2] at h; cases h
    · rw [if_neg h2] at h
      have hr : raw = (encStr s ++ [0]).map fun u => if u = 124 then 0 else u :=
        (Except.ok.inj h).symm
      have hlen : raw.length = (encStr s).length + 1 := by
        rw [hr]; simp
      omega

lemma takeWhile_append_first_zero (pre post : GoStr) (h : 0 ∉ pre) :
    (pre ++ 0 :: post).takeWhile (fun u => u != 0) = pre := by
  induction pre with
  | nil => simp [List.takeWhile]
  | cons u pre ih =>
    have hu : u ≠ 0 := fun huu => h (huu ▸ List.mem_cons_self u pre)
    have hpre : 0 ∉ pre := fun hm => h (List.mem_cons_of_mem u hm)
    have hb : (u != 0) = true := by simp [hu]
    rw [List.cons_append, List.takeWhile_cons, if_pos hb, ih hpre]

lemma testBit_6148_iff (i : Nat) :
    Nat.testBit 6148 i = true ↔ (i = 2 ∨ i = 11 ∨ i = 12) := by
  rcases Nat.lt_or_ge i 13 with h | h
  · interval_cases i <;> decide
  · have h2 : 6148 < 2 ^ i :=
      lt_of_lt_of_le (by norm_num) (Nat.pow_le_pow_right (by norm_num) h)
    rw [Nat.testBit_eq_false_of_lt h2]
    simp
    omega

lemma testBit_2052_iff (i : Nat) :
    Nat.testBit 2052 i = true ↔ (i = 2 ∨ i = 11) := by
  rcases Nat.lt_or_ge i 13 with h | h
  · interval_cases i <;> decide
  · have h2 : 2052 < 2 ^ i :=
      lt_of_lt_of_le (by norm_num) (Nat.pow_le_pow_right (by norm_num) h)
    rw [Nat.testBit_eq_false_of_lt h2]
    simp
    omega

lemma openFlags_val : FileMustExist ||| HideReadOnly ||| PathMustExist = 6148 := by
  decide

lemma saveFlags_val : HideReadOnly ||| PathMustExist = 2052 := by
  decide

/-! ### Claims -/

/-- The buffer `ToRaw` actually produces for the spec's example filters. -/
def exampleRaw : GoStr :=
  [84, 101, 120, 116, 32, 70, 105, 108, 101, 115, 0,
   42, 46, 116, 120, 116, 0,
   65, 108, 108, 32, 70, 105, 108, 101, 115, 0,
   42, 46, 42, 0, 0, 0]

/-- Claim C1, counterexample: on the spec's own example
`[{"Text Files", "*.txt"}, {"All Files", "*.*"}]` the encoder produces a
buffer with 6 terminator units — layout `Text Files\0*.txt\0All Files\0*.*\0\0\0`
— not the claimed `2 * len(list) + 1 = 5` with layout ending `*.*\0\0`. -/
theorem toRaw_example_refutes_count :
    FileFilter.ToRaw exampleFilters = .ok exampleRaw ∧
    exampleRaw.count 0 = 6 ∧
    2 * exampleFilters.length + 1 = 5 ∧ (6 : Nat) ≠ 5 :=
  ⟨rfl, by decide, rfl, by decide⟩

/-- Claim C1 (amended): for every filter list whose patterns contain no space
and whose names and patterns contain neither NUL nor `'|'`, `ToRaw` produces
the wide-character buffer `name1\0pattern1\0name2\0pattern2\0...\0\0\0` — each
name and pattern (UTF-16 encoded) followed by one terminator unit, in input
order, with exactly two extra terminator units after the last pattern's
terminator (one from the builder's extra separator, one appended by the
string-to-UTF-16 conversion), so the buffer contains exactly
`2 * len(list) + 2` terminator units. -/
theorem toRaw_packed_layout (ff : FileFilter)
    (h : ∀ flt ∈ ff, 32 ∉ flt.Pattern ∧ 0 ∉ flt.Name ∧ 0 ∉ flt.Pattern ∧
         124 ∉ flt.Name ∧ 124 ∉ flt.Pattern) :
    FileFilter.ToRaw ff =
      .ok ((ff.flatMap fun flt =>
             encStr flt.Name ++ [0] ++ encStr flt.Pattern ++ [0]) ++ [0, 0]) ∧
    ((ff.flatMap fun flt =>
        encStr flt.Name ++ [0] ++ encStr flt.Pattern ++ [0]) ++ [0, 0]).count 0 =
      2 * ff.length + 2 := by
  have hsp : ∀ flt ∈ ff, 32 ∉ flt.Pattern := fun flt hm => (h flt hm).1
  have h0 : ∀ flt ∈ ff, 0 ∉ flt.Name ∧ 0 ∉ flt.Pattern :=
    fun flt hm => ⟨(h flt hm).2.1, (h flt hm).2.2.1⟩
  have h124 : ∀ flt ∈ ff, 124 ∉ flt.Name ∧ 124 ∉ flt.Pattern :=
    fun flt hm => ⟨(h flt hm).2.2.2.1, (h flt hm).2.2.2.2⟩
  constructor
  · rw [toRaw_ok_eq ff hsp h0, subst124_encStr_filterBody,
      flatMap_subst_eq_plain ff h124]
  · rw [List.count_append, count_zero_plain_layout ff h0]
    rfl

/-- Witness for the amended Claim C1, at the spec's example filters. -/
theorem toRaw_packed_layout_witness :
    FileFilter.ToRaw exampleFilters =
      .ok ((exampleFilters.flatMap fun flt =>
             encStr flt.Name ++ [0] ++ encStr flt.Pattern ++ [0]) ++ [0, 0]) ∧
    ((exampleFilters.flatMap fun flt =>
        encStr flt.Name ++ [0] ++ encStr flt.Pattern ++ [0]) ++ [0, 0]).count 0 =
      2 * exampleFilters.length + 2 :=
  toRaw_packed_layout exampleFilters (by decide)

/-- Claim C2: a filter list in which some pattern contains a space makes
`ToRaw` return the error `"pattern contains a space"` and no buffer, and both
dialog functions propagate exactly that error via `NewTagOFNA`, independently
of the OS (the conclusion holds for every OS oracle, so no OS call can have
influenced it). -/
theorem toRaw_space_rejected (ff : FileFilter)
    (h : ∃ flt ∈ ff, 32 ∈ flt.Pattern) :
    FileFilter.ToRaw ff = .error "pattern contains a space" ∧
    ∀ sizeofOfn os parentHWND t d, 0 ∉ t →
      GetOpenFileName sizeofOfn os parentHWND t ff d =
        ([], false, some "pattern contains a space") ∧
      GetSaveFileName sizeofOfn os parentHWND t ff d =
        ([], false, some "pattern contains a space") := by
  have hraw : FileFilter.ToRaw ff = .error "pattern contains a space" := by
    unfold FileFilter.ToRaw
    rw [toRawLoop_error ff h []]
  refine ⟨hraw, ?_⟩
  intro sizeofOfn os parentHWND t d ht
  constructor
  · rw [getOpenFileName_eq_runDialog,
      runDialog_error _ _ _ _ _ _ _ _
        (newTagOFNA_filter_error _ _ _ _ _ _ _ ht hraw)]
  · rw [getSaveFileName_eq_runDialog,
      runDialog_error _ _ _ _ _ _ _ _
        (newTagOFNA_filter_error _ _ _ _ _ _ _ ht hraw)]

/-- The spec's negative example `[{"Bad", "*.* txt"}]` (pattern with a space). -/
def spaceFilters : FileFilter :=
  [{ Name := [66, 97, 100], Pattern := [42, 46, 42, 32, 116, 120, 116] }]

/-- Witness for Claim C2 at the spec's negative example. -/
theorem toRaw_space_rejected_witness :
    FileFilter.ToRaw spaceFilters = .error "pattern contains a space" ∧
    GetOpenFileName 152 (fun _ => (1, [])) 0 [] spaceFilters [] =
      ([], false, some "pattern contains a space") ∧
    GetSaveFileName 152 (fun _ => (1, [])) 0 [] spaceFilters [] =
      ([], false, some "pattern contains a space") := by
  have h := toRaw_space_rejected spaceFilters (by decide)
  exact ⟨h.1, (h.2 152 (fun _ => (1, [])) 0 [] [] (by decide)).1,
         (h.2 152 (fun _ => (1, [])) 0 [] [] (by decide)).2⟩

/-- Claim C3: whenever the OS entry point returns zero on the structure it is
given, `GetOpenFileName` and `GetSaveFileName` both return exactly
`("", false, nil)` — empty path, `found = false`, nil error. -/
theorem dialogs_cancel_triple (sizeofOfn : Nat) (os : TagOFNA → Nat × GoStr)
    (parentHWND : Nat) (t : GoStr) (ff : FileFilter) (d : GoStr) (raw : GoStr)
    (ht : 0 ∉ t) (hd : 0 ∉ d) (hf : FileFilter.ToRaw ff = .ok raw)
    (hopen : (os (builtOFN sizeofOfn parentHWND raw t d
        (FileMustExist ||| HideReadOnly ||| PathMustExist))).1 = 0)
    (hsave : (os (builtOFN sizeofOfn parentHWND raw t d
        (HideReadOnly ||| PathMustExist))).1 = 0) :
    GetOpenFileName sizeofOfn os parentHWND t ff d = ([], false, none) ∧
    GetSaveFileName sizeofOfn os parentHWND t ff d = ([], false, none) := by
  constructor
  · rw [getOpenFileName_eq_runDialog, runDialog_ok _ _ _ _ _ _ _ raw ht hd hf,
      if_pos hopen]
  · rw [getSaveFileName_eq_runDialog, runDialog_ok _ _ _ _ _ _ _ raw ht hd hf,
      if_pos hsave]

/-- Witness for Claim C3: a cancelling OS oracle yields `("", false, nil)`. -/
theorem dialogs_cancel_triple_witness :
    GetOpenFileName 152 (fun _ => (0, [])) 0 [] [] [] = ([], false, none) ∧
    GetSaveFileName 152 (fun _ => (0, [])) 0 [] [] [] = ([], false, none) :=
  dialogs_cancel_triple 152 (fun _ => (0, [])) 0 [] [] [] [0, 0]
    (by decide) (by decide) rfl rfl rfl

/-- Claim C4: when the title, the filter list or the initial directory fails
to encode (title or directory contains NUL, or the filter encoder fails, e.g.
on a pattern with a space), both dialog functions return
`("", false, non-nil error)`, and the result is the same for every OS oracle
— so the OS entry point cannot have been consulted and no partial state is
observable. -/
theorem dialogs_encoding_failure (sizeofOfn : Nat) (os : TagOFNA → Nat × GoStr)
    (parentHWND : Nat) (t : GoStr) (ff : FileFilter) (d : GoStr)
    (h : 0 ∈ t ∨ (∃ e, FileFilter.ToRaw ff = .error e) ∨ 0 ∈ d) :
    (∃ e, GetOpenFileName sizeofOfn os parentHWND t ff d = ([], false, some e)) ∧
    (∃ e, GetSaveFileName sizeofOfn os parentHWND t ff d = ([], false, some e)) ∧
    ∀ os2, GetOpenFileName sizeofOfn os parentHWND t ff d =
             GetOpenFileName sizeofOfn os2 parentHWND t ff d ∧
           GetSaveFileName sizeofOfn os parentHWND t ff d =
             GetSaveFileName sizeofOfn os2 parentHWND t ff d := by
  obtain ⟨e1, he1⟩ := newTagOFNA_error sizeofOfn parentHWND t ff d
    (FileMustExist ||| HideReadOnly ||| PathMustExist) h
  obtain ⟨e2, he2⟩ := newTagOFNA_error sizeofOfn parentHWND t ff d
    (HideReadOnly ||| PathMustExist) h
  refine ⟨⟨e1, ?_⟩, ⟨e2, ?_⟩, ?_⟩
  · rw [getOpenFileName_eq_runDialog, runDialog_error _ _ _ _ _ _ _ _ he1]
  · rw [getSaveFileName_eq_runDialog, runDialog_error _ _ _ _ _ _ _ _ he2]
  · intro os2
    constructor
    · simp only [getOpenFileName_eq_runDialog]
      rw [runDialog_error _ _ os _ _ _ _ _ he1,
        runDialog_error _ _ os2 _ _ _ _ _ he1]
    · simp only [getSaveFileName_eq_runDialog]
      rw [runDialog_error _ _ os _ _ _ _ _ he2,
        runDialog_error _ _ os2 _ _ _ _ _ he2]

/-- Witness for Claim C4, with a title string containing a NUL. -/
theorem dialogs_encoding_failure_witness :
    (∃ e, GetOpenFileName 152 (fun _ => (1, [72, 0])) 0 [0] [] [] =
      ([], false, some e)) ∧
    (∃ e, GetSaveFileName 152 (fun _ => (1, [72, 0])) 0 [0] [] [] =
      ([], false, some e)) ∧
    ∀ os2, GetOpenFileName 152 (fun _ => (1, [72, 0])) 0 [0] [] [] =
             GetOpenFileName 152 os2 0 [0] [] [] ∧
           GetSaveFileName 152 (fun _ => (1, [72, 0])) 0 [0] [] [] =
             GetSaveFileName 152 os2 0 [0] [] [] :=
  dialogs_encoding_failure 152 (fun _ => (1, [72, 0])) 0 [0] [] []
    (Or.inl (by decide))

/-- Claim C5: `GetSaveFileName` builds its structure with exactly the
path-must-exist (bit 11) and hide-read-only (bit 2) flags and without the
file-must-exist flag, and apart from this flag word its construction,
invocation and decoding are identical to `GetOpenFileName`: both functions
equal the single flag-parametric body `runDialog` at their flag words. -/
theorem save_differs_only_in_flags :
    (∀ sizeofOfn os parentHWND t ff d,
      GetSaveFileName sizeofOfn os parentHWND t ff d =
        runDialog (HideReadOnly ||| PathMustExist) sizeofOfn os parentHWND t ff d ∧
      GetOpenFileName sizeofOfn os parentHWND t ff d =
        runDialog (FileMustExist ||| HideReadOnly ||| PathMustExist)
          sizeofOfn os parentHWND t ff d) ∧
    (∀ i, (HideReadOnly ||| PathMustExist).testBit i = true ↔ (i = 2 ∨ i = 11)) ∧
    (HideReadOnly ||| PathMustExist) &&& FileMustExist = 0 := by
  refine ⟨fun sizeofOfn os parentHWND t ff d => ⟨rfl, rfl⟩, ?_, by decide⟩
  intro i
  rw [saveFlags_val]
  exact testBit_2052_iff i

/-- Claim C6: the structure `GetOpenFileName` passes to the OS carries exactly
the flags `FileMustExist ||| HideReadOnly ||| PathMustExist` — bits 12, 2 and
11 — and no other flag bits. -/
theorem open_flags_exact (sizeofOfn : Nat) (os : TagOFNA → Nat × GoStr)
    (parentHWND : Nat) (t : GoStr) (ff : FileFilter) (d : GoStr) (raw : GoStr)
    (ht : 0 ∉ t) (hd : 0 ∉ d) (hf : FileFilter.ToRaw ff = .ok raw) :
    GetOpenFileName sizeofOfn os parentHWND t ff d =
      (if (os (builtOFN sizeofOfn parentHWND raw t d
              (FileMustExist ||| HideReadOnly ||| PathMustExist))).1 = 0
       then ([], false, none)
       else (UTF16ToString (os (builtOFN sizeofOfn parentHWND raw t d
              (FileMustExist ||| HideReadOnly ||| PathMustExist))).2,
             true, none)) ∧
    (builtOFN sizeofOfn parentHWND raw t d
        (FileMustExist ||| HideReadOnly ||| PathMustExist)).Flags =
      FileMustExist ||| HideReadOnly ||| PathMustExist ∧
    ∀ i, (builtOFN sizeofOfn parentHWND raw t d
        (FileMustExist ||| HideReadOnly ||| PathMustExist)).Flags.testBit i = true ↔
      (i = 2 ∨ i = 11 ∨ i = 12) := by
  refine ⟨?_, rfl, ?_⟩
  · rw [getOpenFileName_eq_runDialog, runDialog_ok _ _ _ _ _ _ _ raw ht hd hf]
  · intro i
    show Nat.testBit (FileMustExist ||| HideReadOnly ||| PathMustExist) i = true ↔ _
    rw [openFlags_val]
    exact testBit_6148_iff i

/-- Witness for Claim C6 at concrete inputs. -/
theorem open_flags_exact_witness :
    GetOpenFileName 152 (fun _ => (0, [])) 0 [] [] [] = ([], false, none) ∧
    (builtOFN 152 0 [0, 0] [] []
        (FileMustExist ||| HideReadOnly ||| PathMustExist)).Flags =
      FileMustExist ||| HideReadOnly ||| PathMustExist ∧
    ∀ i, (builtOFN 152 0 [0, 0] [] []
        (FileMustExist ||| HideReadOnly ||| PathMustExist)).Flags.testBit i = true ↔
      (i = 2 ∨ i = 11 ∨ i = 12) := by
  have h := open_flags_exact 152 (fun _ => (0, [])) 0 [] [] [] [0, 0]
    (by decide) (by decide) rfl
  exact ⟨h.1.trans rfl, h.2.1, h.2.2⟩

/-- Claim C7: encoding the empty filter list succeeds (no crash), yielding
exactly the double terminator `[0, 0]` — a buffer beginning with a well-formed
double terminator — and every successful encoding yields a nonempty buffer, so
the final take-address-of-first-element step is always in bounds. -/
theorem toRaw_empty_list :
    FileFilter.ToRaw ([] : FileFilter) = .ok [0, 0] ∧
    ∀ ff raw, FileFilter.ToRaw ff = .ok raw → 1 ≤ raw.length :=
  ⟨rfl, toRaw_ok_length⟩

/-- Witness for Claim C7: the nonemptiness bound applied at the empty list. -/
theorem toRaw_empty_list_witness :
    FileFilter.ToRaw ([] : FileFilter) = .ok [0, 0] ∧
    1 ≤ ([0, 0] : GoStr).length :=
  ⟨toRaw_empty_list.1, toRaw_empty_list.2 [] [0, 0] rfl⟩

/-- Claim C8: when the OS entry point returns nonzero, each dialog function
returns its output buffer decoded from UTF-16 truncated at the first
terminator unit, together with `found = true` and a nil error; the last
conjunct exhibits the truncation at the first terminator explicitly. -/
theorem dialogs_success_decode (sizeofOfn : Nat) (os : TagOFNA → Nat × GoStr)
    (parentHWND : Nat) (t : GoStr) (ff : FileFilter) (d : GoStr) (raw : GoStr)
    (ht : 0 ∉ t) (hd : 0 ∉ d) (hf : FileFilter.ToRaw ff = .ok raw)
    (hopen : (os (builtOFN sizeofOfn parentHWND raw t d
        (FileMustExist ||| HideReadOnly ||| PathMustExist))).1 ≠ 0)
    (hsave : (os (builtOFN sizeofOfn parentHWND raw t d
        (HideReadOnly ||| PathMustExist))).1 ≠ 0) :
    GetOpenFileName sizeofOfn os parentHWND t ff d =
      (UTF16ToString (os (builtOFN sizeofOfn parentHWND raw t d
        (FileMustExist ||| HideReadOnly ||| PathMustExist))).2, true, none) ∧
    GetSaveFileName sizeofOfn os parentHWND t ff d =
      (UTF16ToString (os (builtOFN sizeofOfn parentHWND raw t d
        (HideReadOnly ||| PathMustExist))).2, true, none) ∧
    ∀ pre post, 0 ∉ pre →
      UTF16ToString (pre ++ 0 :: post) = utf16Decode pre := by
  refine ⟨?_, ?_, ?_⟩
  · rw [getOpenFileName_eq_runDialog, runDialog_ok _ _ _ _ _ _ _ raw ht hd hf,
      if_neg hopen]
  · rw [getSaveFileName_eq_runDialog, runDialog_ok _ _ _ _ _ _ _ raw ht hd hf,
      if_neg hsave]
  · intro pre post hpre
    rw [UTF16ToString, takeWhile_append_first_zero pre post hpre]

/-- Witness for Claim C8: a succeeding OS oracle whose buffer holds
`"Hi\0X"` decodes to `"Hi"` with `found = true` and nil error. -/
theorem dialogs_success_decode_witness :
    GetOpenFileName 152 (fun _ => (1, [72, 105, 0, 88])) 0 [] [] [] =
      ([72, 105], true, none) ∧
    GetSaveFileName 152 (fun _ => (1, [72, 105, 0, 88])) 0 [] [] [] =
      ([72, 105], true, none) ∧
    UTF16ToString ([72, 105] ++ 0 :: [88]) = utf16Decode [72, 105] := by
  have h := dialogs_success_decode 152 (fun _ => (1, [72, 105, 0, 88])) 0 [] [] []
    [0, 0] (by decide) (by decide) rfl (by decide) (by decide)
  exact ⟨h.1.trans rfl, h.2.1.trans rfl, h.2.2 [72, 105] [88] (by decide)⟩

/-- Claim C9: the structure each dialog passes to the OS has its size field
equal to the byte size of the native structure (`unsafe.Sizeof`, below 2^32),
its output-buffer pointer set to a freshly allocated zeroed 1024-wide-character
buffer built inside the call, and its declared output capacity set to 1024. -/
theorem dialogs_struct_fields (sizeofOfn : Nat) (os : TagOFNA → Nat × GoStr)
    (parentHWND : Nat) (t : GoStr) (ff : FileFilter) (d : GoStr) (raw : GoStr)
    (hsz : sizeofOfn < 2 ^ 32)
    (ht : 0 ∉ t) (hd : 0 ∉ d) (hf : FileFilter.ToRaw ff = .ok raw) :
    GetOpenFileName sizeofOfn os parentHWND t ff d =
      (if (os (builtOFN sizeofOfn parentHWND raw t d
              (FileMustExist ||| HideReadOnly ||| PathMustExist))).1 = 0
       then ([], false, none)
       else (UTF16ToString (os (builtOFN sizeofOfn parentHWND raw t d
              (FileMustExist ||| HideReadOnly ||| PathMustExist))).2,
             true, none)) ∧
    GetSaveFileName sizeofOfn os parentHWND t ff d =
      (if (os (builtOFN sizeofOfn parentHWND raw t d
              (HideReadOnly ||| PathMustExist))).1 = 0
       then ([], false, none)
       else (UTF16ToString (os (builtOFN sizeofOfn parentHWND raw t d
              (HideReadOnly ||| PathMustExist))).2, true, none)) ∧
    ∀ flags,
      (builtOFN sizeofOfn parentHWND raw t d flags).LStructSize = sizeofOfn ∧
      (builtOFN sizeofOfn parentHWND raw t d flags).LpstrFile =
        some (List.replicate 1024 0) ∧
      (builtOFN sizeofOfn parentHWND raw t d flags).NMaxFile = 1024 := by
  refine ⟨?_, ?_, ?_⟩
  · rw [getOpenFileName_eq_runDialog, runDialog_ok _ _ _ _ _ _ _ raw ht hd hf]
  · rw [getSaveFileName_eq_runDialog, runDialog_ok _ _ _ _ _ _ _ raw ht hd hf]
  · intro flags
    exact ⟨Nat.mod_eq_of_lt hsz, rfl, rfl⟩

/-- Witness for Claim C9 at concrete inputs. -/
theorem dialogs_struct_fields_witness :
    GetOpenFileName 152 (fun _ => (0, [])) 0 [] [] [] = ([], false, none) ∧
    GetSaveFileName 152 (fun _ => (0, [])) 0 [] [] [] = ([], false, none) ∧
    ∀ flags, (builtOFN 152 0 [0, 0] [] [] flags).LStructSize = 152 ∧
      (builtOFN 152 0 [0, 0] [] [] flags).LpstrFile =
        some (List.replicate 1024 0) ∧
      (builtOFN 152 0 [0, 0] [] [] flags).NMaxFile = 1024 := by
  have h := dialogs_struct_fields 152 (fun _ => (0, [])) 0 [] [] [] [0, 0]
    (by norm_num) (by decide) (by decide) rfl
  exact ⟨h.1.trans rfl, h.2.1.trans rfl, h.2.2⟩

/-- Claim C10: a filter entry whose name or pattern contains `'|'` is not
rejected (provided no pattern space and no NUL): `ToRaw` succeeds, no `'|'`
unit survives in the buffer, and each `'|'` code point of a name or pattern
becomes one additional terminator unit — extra field boundaries — on top of
the `2 * len + 2` structural terminators. -/
theorem toRaw_pipe_to_terminator (ff : FileFilter)
    (hsp : ∀ flt ∈ ff, 32 ∉ flt.Pattern)
    (h0 : ∀ flt ∈ ff, 0 ∉ flt.Name ∧ 0 ∉ flt.Pattern) :
    FileFilter.ToRaw ff =
      .ok ((ff.flatMap fun flt =>
             subst124 (encStr flt.Name) ++ [0] ++
               subst124 (encStr flt.Pattern) ++ [0]) ++ [0, 0]) ∧
    124 ∉ ((ff.flatMap fun flt =>
             subst124 (encStr flt.Name) ++ [0] ++
               subst124 (encStr flt.Pattern) ++ [0]) ++ [0, 0]) ∧
    ((ff.flatMap fun flt =>
        subst124 (encStr flt.Name) ++ [0] ++
          subst124 (encStr flt.Pattern) ++ [0]) ++ [0, 0]).count 0 =
      2 * ff.length + 2 +
        (ff.map fun flt => flt.Name.count 124 + flt.Pattern.count 124).sum := by
  refine ⟨?_, ?_, ?_⟩
  · rw [toRaw_ok_eq ff hsp h0, subst124_encStr_filterBody]
  · rw [← subst124_encStr_filterBody]
    intro hm
    rcases List.mem_append.mp hm with hm | hm
    · exact pipe_not_mem_subst124 _ hm
    · simp at hm
  · rw [List.count_append, count_zero_subst_layout ff h0]
    have h2 : ([0, 0] : GoStr).count 0 = 2 := rfl
    rw [h2]
    omega

/-- A filter whose name contains `'|'` (`{"A|B", "*.t"}`). -/
def pipeFilters : FileFilter :=
  [{ Name := [65, 124, 66], Pattern := [42, 46, 116] }]

/-- Witness for Claim C10 at a filter whose name contains `'|'`. -/
theorem toRaw_pipe_to_terminator_witness :
    FileFilter.ToRaw pipeFilters =
      .ok ((pipeFilters.flatMap fun flt =>
             subst124 (encStr flt.Name) ++ [0] ++
               subst124 (encStr flt.Pattern) ++ [0]) ++ [0, 0]) ∧
    124 ∉ ((pipeFilters.flatMap fun flt =>
             subst124 (encStr flt.Name) ++ [0] ++
               subst124 (encStr flt.Pattern) ++ [0]) ++ [0, 0]) ∧
    ((pipeFilters.flatMap fun flt =>
        subst124 (encStr flt.Name) ++ [0] ++
          subst124 (encStr flt.Pattern) ++ [0]) ++ [0, 0]).count 0 =
      2 * pipeFilters.length + 2 +
        (pipeFilters.map fun flt =>
          flt.Name.count 124 + flt.Pattern.count 124).sum :=
  toRaw_pipe_to_terminator pipeFilters (by decide) (by decide)

end Winfileask
